import Mathlib

set_option maxRecDepth 4000

/-!
Verification of the zenoh-client-rs framing-and-handshake stack.

Shallow embedding conventions:
* machine integers are `Nat`; wrapping/truncation is written explicitly
  (`% 2 ^ w`, `&&&`, `^^^` with the width given by the source type);
* byte buffers are `List Nat` with every element `< 256` at use sites;
* fallible Rust code (`Result`) becomes `Except`; a Rust panic
  (out-of-bounds index, `unreachable!`, `unimplemented!`) is modelled by
  `Option.none` wrapped around the result;
* `usize` subtraction is `Nat` subtraction (the inputs evaluated in the
  theorems below never make the source underflow).
-/

/-- Error type of the external `cobs` crate's decoder, as referenced by
`src/link/mod.rs` (`cobs::DecodeError::TargetBufTooSmall`). -/
inductive CobsDecodeError
  | targetBufTooSmall
deriving DecidableEq, Repr

/-- `LinkError` from src/link/mod.rs. -/
inductive LinkError
  | invalidFrame
  | decodeError (e : CobsDecodeError)
  | crcError
  | invalidParameter
  | ioError
deriving DecidableEq, Repr

/-- `TransportError` from src/transport/mod.rs.  `encodeError` is the
`EncodeError(DidntWrite)` variant and `decodeError` the
`DecodeError(DidntRead)` variant. -/
inductive TransportError
  | linkError (e : LinkError)
  | encodeError
  | decodeError
  | moreCookieAllocated
  | unexpectMsg
  | openSnResolution
deriving DecidableEq, Repr

/-- Little-endian bytes of a `u16` (`(bytes_len as u16).to_le_bytes()`). -/
def u16LeBytes (n : Nat) : List Nat :=
  [n % 256, n / 256 % 256]

/-- Little-endian bytes of a `u32` (`crc.to_le_bytes()`). -/
def u32LeBytes (n : Nat) : List Nat :=
  [n % 256, n / 256 % 256, n / 2 ^ 16 % 256, n / 2 ^ 24 % 256]

/-- `u32::from_le_bytes` on four bytes. -/
def u32FromLeBytes (b0 b1 b2 b3 : Nat) : Nat :=
  b0 + 256 * b1 + 2 ^ 16 * b2 + 2 ^ 24 * b3

/-- Modelled from the spec: the reflected CRC-32 polynomial `0xEDB88320`
(§4.1); the source file src/link/serial/crctab.rs (`mod crctab`) is not
under src/. -/
def crc32Poly : Nat := 0xEDB88320

/-- Modelled from the spec: one bit step of the reflected CRC-32. -/
def crc32Bit (crc : Nat) : Nat :=
  if crc % 2 == 1 then (crc >>> 1) ^^^ crc32Poly else crc >>> 1

/-- Modelled from the spec: one byte step of the reflected CRC-32. -/
def crc32Byte (crc b : Nat) : Nat :=
  let c := crc ^^^ (b % 256)
  crc32Bit (crc32Bit (crc32Bit (crc32Bit (crc32Bit (crc32Bit (crc32Bit (crc32Bit c)))))))

/-- Identity continuation-passing case split on a `Nat`.  Both branches
rebuild the argument unchanged (`forceNat_eq`); its only purpose is to
have kernel evaluation bring the running accumulators of the loops below
to literal form at every step, keeping reduction of the concrete test
vectors in this file iterative instead of deeply nested. -/
def forceNat (n : Nat) (k : Nat → α) : α :=
  match n with
  | 0 => k 0
  | m + 1 => k (m + 1)


/-- The running CRC fold over the data bytes (accumulator forced, see
`forceNat`; `crcFold_eq_foldl` relates it to `List.foldl`). -/
def crcFold (crc : Nat) (data : List Nat) : Nat :=
  match data with
  | [] => crc
  | b :: rest => forceNat (crc32Byte crc b) (fun c => crcFold c rest)


/-- Modelled from the spec: `compute_crc32` (src/link/serial/crctab.rs is
missing from src/): standard IEEE 802.3 CRC-32, reflected, initial value
`0xFFFFFFFF`, final XOR `0xFFFFFFFF` (spec §4.1). -/
def compute_crc32 (data : List Nat) : Nat :=
  (crcFold 0xFFFFFFFF data) ^^^ 0xFFFFFFFF

/-- Fuel-based base-2 logarithm (128 units of fuel cover every `u128`
value); agrees with `Nat.log2` (see `log2F_eq_log2`). -/
def log2F (fuel n : Nat) : Nat :=
  match fuel with
  | 0 => 0
  | fuel + 1 => if n ≥ 2 then log2F fuel (n / 2) + 1 else 0

/-- `u128::leading_zeros` of a value `< 2 ^ 128`. -/
def leadingZeros128 (x : Nat) : Nat :=
  if x = 0 then 128 else 127 - log2F 128 x

/-- `ZenohID::size` from src/protocol/mod.rs:
`Self::MAX_SIZE - (u128::from_le_bytes(self.0).leading_zeros() as usize / 8)`
with `MAX_SIZE = 16`.  The identifier is represented by its `u128` value. -/
def ZenohID.size (id : Nat) : Nat :=
  16 - leadingZeros128 id / 8

/-- Byte `k` of the little-endian representation of a `u128` value. -/
def byteAt (id k : Nat) : Nat :=
  id / 2 ^ (8 * k) % 256

/-- `ZenohID::to_le_bytes`: the 16 little-endian bytes of the identifier. -/
def leBytes16 (id : Nat) : List Nat :=
  [byteAt id 0, byteAt id 1, byteAt id 2, byteAt id 3,
   byteAt id 4, byteAt id 5, byteAt id 6, byteAt id 7,
   byteAt id 8, byteAt id 9, byteAt id 10, byteAt id 11,
   byteAt id 12, byteAt id 13, byteAt id 14, byteAt id 15]

/-- Number of trailing zero bytes of the little-endian representation
(bytes 15, 14, … inspected from the end): the spec-side counterpart used
by claim C7 (spec §3, §4.3). -/
def trailingZeroBytes (id : Nat) : Nat :=
  (([byteAt id 15, byteAt id 14, byteAt id 13, byteAt id 12,
     byteAt id 11, byteAt id 10, byteAt id 9, byteAt id 8,
     byteAt id 7, byteAt id 6, byteAt id 5, byteAt id 4,
     byteAt id 3, byteAt id 2, byteAt id 1, byteAt id 0]).takeWhile
    (fun b => b == 0)).length

/-- `WhatAmI` from src/protocol/whatami.rs. -/
inductive WhatAmI
  | router
  | peer
  | client
deriving DecidableEq, Repr

/-- `impl From<u8> for WhatAmI` (src/protocol/whatami.rs:25-35); the
`_ => unreachable!()` arm (low bits `0b11`) is a panic, modelled as `none`. -/
def whatAmIFrom (b : Nat) : Option WhatAmI :=
  match b &&& 0b11 with
  | 0b00 => some .router
  | 0b01 => some .peer
  | 0b10 => some .client
  | _ => none

/-- Wire bits of a `WhatAmI` as matched in `InitSyn::encode`
(src/protocol/transport/init.rs:189-193). -/
def whatAmIBits : WhatAmI → Nat
  | .router => 0b00
  | .peer => 0b01
  | .client => 0b10

/-- `_z_sn_modulo_mask` from src/transport/unicast.rs:171-179; the
`_ => unreachable!()` arm is a panic, modelled as `none`.  The `u64` arm is
truncated to `u32` by the source's `as u32` cast. -/
def _z_sn_modulo_mask (bits : Nat) : Option Nat :=
  match bits with
  | 0x00 => some ((2 ^ 8 - 1) >>> 1)
  | 0x01 => some ((2 ^ 16 - 1) >>> 2)
  | 0x02 => some ((2 ^ 32 - 1) >>> 4)
  | 0x03 => some (((2 ^ 64 - 1) >>> 1) % 2 ^ 32)
  | _ => none

/-- Bitwise `!` on a `u32` value. -/
def bitNot32 (m : Nat) : Nat :=
  m ^^^ (2 ^ 32 - 1)

/-- The masking step of src/transport/unicast.rs:126:
`params.initial_sn_tx = params.initial_sn_tx & !_z_sn_modulo_mask(params.seq_num_res)`,
applied to the raw PRNG output `x` (the PRNG itself is the external `rand`
crate; its output is an arbitrary `u32`). -/
def initialSnTx (x : Nat) (seqNumRes : Nat) : Option Nat :=
  (_z_sn_modulo_mask seqNumRes).map (fun m => x &&& bitNot32 m)

/-- `Varint::<T>::decode` from src/protocol/mod.rs:56-74, for a type `T` of
`sizeBytes` bytes.  The loop body, on the list of not-yet-consumed reader
bytes: accumulate 7 payload bits per byte (the shift past the width of `T`
is discarded, as Rust `<<` on `T` does), stop when the continuation bit is
clear; the loop runs at most `sizeBytes + 1` times and falls through to
`Ok(value)` even when the last byte still had the continuation bit set.
Returns the value and the number of bytes consumed; a `DidntRead` from
`read_u8` surfaces as `TransportError::DecodeError`. -/
def varintDecodeLoop (width : Nat) (bs : List Nat) (fuel value shift consumed : Nat) :
    Except TransportError (Nat × Nat) :=
  match fuel with
  | 0 => .ok (value, consumed)
  | fuel + 1 =>
    match bs with
    | [] => .error .decodeError
    | b :: rest =>
      let value := value ||| ((b &&& 0x7F) <<< shift) % 2 ^ width
      if b &&& 0x80 == 0 then
        .ok (value, consumed + 1)
      else
        varintDecodeLoop width rest fuel value (shift + 7) (consumed + 1)

/-- `Varint::<T>::decode` for a `T` of `sizeBytes` bytes (see
`varintDecodeLoop`): `for _ in 0..size + 1 { ... }`. -/
def varintDecode (sizeBytes : Nat) (bs : List Nat) : Except TransportError (Nat × Nat) :=
  varintDecodeLoop (8 * sizeBytes) bs (sizeBytes + 1) 0 0 0

/-- Modelled from the spec: `Varint::encode` (§4.2 — seven data bits per
byte, high bit = continuation, minimal length, last byte has high bit 0);
the function is commented out in src/protocol/mod.rs and its used
definition is not under src/. -/
def varintEncodeAux (fuel n : Nat) : List Nat :=
  match fuel with
  | 0 => [n]
  | fuel + 1 =>
    if n < 128 then [n]
    else (n % 128 + 128) :: varintEncodeAux fuel (n / 128)

/-- Modelled from the spec (see `varintEncodeAux`): `n` itself bounds the
number of output groups, so it serves as fuel. -/
def varintEncode (n : Nat) : List Nat :=
  varintEncodeAux n n

/-- Slice `l[a..b]` of a byte buffer (Rust `&l[a..b]`). -/
def byteSlice (l : List Nat) (a b : Nat) : List Nat :=
  (l.drop a).take (b - a)

/-- Encoder state of `SerialIntf::internal_send`
(src/link/serial/mod.rs:128-334): the running overhead counter, the
look-ahead deque `prev_data`, the two region cursors `data_start_idx` and
`crc_start_idx`, and the bytes written to the serial port so far
(`send_patch`/`write_all` append to `out`). -/
structure SendSt where
  overhead : Nat
  prevData : List Nat
  dataStartIdx : Nat
  crcStartIdx : Nat
  out : List Nat
deriving Repr

/-- `Deque::<u8, 5>::push_back`: fails (surfacing as `IoError`) when the
deque already holds 5 elements. -/
def dequePushBack (q : List Nat) (x : Nat) : Except LinkError (List Nat) :=
  if q.length < 5 then .ok (q ++ [x]) else .error .ioError

/-- The `while let Some(d) = prev_data.pop_front() { send_data.push(d) }`
pattern: drain the deque into a `Vec` of capacity `cap`, failing
(`IoError`) when the deque holds more than `cap` elements. -/
def drainDeque (cap : Nat) (q : List Nat) : Except LinkError (List Nat) :=
  if q.length ≤ cap then .ok q else .error .ioError

/-- `CodecState::Header` arm of `internal_send`
(src/link/serial/mod.rs:145-157). -/
def headerStep (header : Nat) (s : SendSt) : Except LinkError SendSt :=
  if header == 0 then
    .ok { s with out := s.out ++ [s.overhead], overhead := 1 }
  else do
    let prev ← dequePushBack s.prevData header
    .ok { s with overhead := s.overhead + 1, prevData := prev }

/-- `CodecState::LenLSB` arm (src/link/serial/mod.rs:158-174).  The zero
branch pops at most one element of `prev_data` into a `Vec<u8, 1>`. -/
def lenLsbStep (len0 : Nat) (s : SendSt) : Except LinkError SendSt :=
  if len0 == 0 then
    .ok { s with out := s.out ++ s.overhead :: s.prevData.take 1, prevData := s.prevData.drop 1, overhead := 1 }
  else do
    let prev ← dequePushBack s.prevData len0
    .ok { s with overhead := s.overhead + 1, prevData := prev }

/-- `CodecState::LenMSB` arm (src/link/serial/mod.rs:175-191).  The zero
branch drains `prev_data` into a `Vec<u8, 2>`. -/
def lenMsbStep (len1 : Nat) (s : SendSt) : Except LinkError SendSt :=
  if len1 == 0 then do
    let sendData ← drainDeque 2 s.prevData
    .ok { s with out := s.out ++ s.overhead :: sendData, prevData := [], overhead := 1 }
  else do
    let prev ← dequePushBack s.prevData len1
    .ok { s with overhead := s.overhead + 1, prevData := prev }

/-- One `CodecState::Data` iteration of `internal_send` at `data_idx = i`
(src/link/serial/mod.rs:192-241).  Note that in the `overhead == 0xff`
branch the source byte `data[i]` is neither examined nor counted, yet
`data_idx` is advanced afterwards. -/
def dataStep (data : List Nat) (i : Nat) (s : SendSt) : Except LinkError SendSt :=
  if s.overhead == 0xff then
    if !s.prevData.isEmpty then do
      let dataEnd := s.dataStartIdx + s.overhead - 1 - s.prevData.length
      let sendData ← drainDeque 3 s.prevData
      let out := s.out ++ s.overhead :: (sendData ++ byteSlice data s.dataStartIdx dataEnd)
      .ok { s with out := out, prevData := [], dataStartIdx := dataEnd, overhead := 1 }
    else
      let dataEnd := s.dataStartIdx + s.overhead - 1
      let out := s.out ++ s.overhead :: byteSlice data s.dataStartIdx dataEnd
      .ok { s with out := out, dataStartIdx := dataEnd, overhead := 1 }
  else if data.getD i 0 == 0 then
    if !s.prevData.isEmpty then do
      let dataEnd := s.dataStartIdx + s.overhead - 1 - s.prevData.length
      let sendData ← drainDeque 3 s.prevData
      let out := s.out ++ s.overhead :: (sendData ++ byteSlice data s.dataStartIdx dataEnd)
      .ok { s with out := out, prevData := [], dataStartIdx := dataEnd + 1, overhead := 1 }
    else
      let dataEnd := s.dataStartIdx + s.overhead - 1
      let out := s.out ++ s.overhead :: byteSlice data s.dataStartIdx dataEnd
      .ok { s with out := out, dataStartIdx := dataEnd + 1, overhead := 1 }
  else
    .ok { s with overhead := s.overhead + 1 }

/-- The `CodecState::Data` loop: one `dataStep` per payload byte
(`data_idx` runs from 0 and the state moves to `Crc` once
`data_idx >= bytes_len`; an empty payload skips directly to `Crc`; the
fuel is `data.length`).  The `forceNat` wrapper is the identity on the
overhead counter (see `forceNat_eq`). -/
def dataLoop (data : List Nat) (fuel i : Nat) (s : SendSt) : Except LinkError SendSt :=
  match fuel with
  | 0 => .ok s
  | fuel + 1 =>
    match dataStep data i s with
    | .error e => .error e
    | .ok s => forceNat s.overhead (fun ov => dataLoop data fuel (i + 1) { s with overhead := ov })

/-- One `CodecState::Crc` iteration of `internal_send` at `crc_idx = j`
(src/link/serial/mod.rs:242-303, before the `crc_idx >= 4` break check).
In the two branches that drain a non-empty `prev_data`, the source writes
`data[data_start_idx..]` but does not advance `data_start_idx`; in the
`overhead == 0xff` branch the byte `crc_bytes[j]` is neither examined nor
counted, yet `crc_idx` is advanced afterwards. -/
def crcStep (data crcBytes : List Nat) (j : Nat) (s : SendSt) : Except LinkError SendSt :=
  let bytesLen := data.length
  if s.overhead == 0xff then
    if !s.prevData.isEmpty then do
      let crcEnd := s.crcStartIdx + s.overhead - 1 - s.prevData.length - bytesLen
      let sendData ← drainDeque 3 s.prevData
      let out := s.out ++ s.overhead :: (sendData ++ data.drop s.dataStartIdx ++ byteSlice crcBytes s.crcStartIdx crcEnd)
      .ok { s with out := out, prevData := [], crcStartIdx := crcEnd, overhead := 1 }
    else if s.dataStartIdx < bytesLen then
      let crcEnd := s.crcStartIdx + s.overhead - 1 - (data.drop s.dataStartIdx).length
      let out := s.out ++ s.overhead :: (data.drop s.dataStartIdx ++ byteSlice crcBytes s.crcStartIdx crcEnd)
      .ok { s with out := out, dataStartIdx := bytesLen, crcStartIdx := crcEnd, overhead := 1 }
    else
      let crcEnd := s.crcStartIdx + s.overhead - 1
      let out := s.out ++ s.overhead :: byteSlice crcBytes s.crcStartIdx crcEnd
      .ok { s with out := out, crcStartIdx := crcEnd, overhead := 1 }
  else if crcBytes.getD j 0 == 0 then
    if !s.prevData.isEmpty then do
      let crcEnd := s.crcStartIdx + s.overhead - 1 - s.prevData.length - bytesLen
      let sendData ← drainDeque 3 s.prevData
      let out := s.out ++ s.overhead :: (sendData ++ data.drop s.dataStartIdx ++ byteSlice crcBytes s.crcStartIdx crcEnd)
      .ok { s with out := out, prevData := [], crcStartIdx := crcEnd + 1, overhead := 1 }
    else if s.dataStartIdx < bytesLen then
      let crcEnd := s.crcStartIdx + s.overhead - 1 - (data.drop s.dataStartIdx).length
      let out := s.out ++ s.overhead :: (data.drop s.dataStartIdx ++ byteSlice crcBytes s.crcStartIdx crcEnd)
      .ok { s with out := out, dataStartIdx := bytesLen, crcStartIdx := crcEnd + 1, overhead := 1 }
    else
      let crcEnd := s.crcStartIdx + s.overhead - 1
      let out := s.out ++ s.overhead :: byteSlice crcBytes s.crcStartIdx crcEnd
      .ok { s with out := out, crcStartIdx := crcEnd + 1, overhead := 1 }
  else
    .ok { s with overhead := s.overhead + 1 }

/-- The final flush of `internal_send` executed when `crc_idx` reaches 4
(src/link/serial/mod.rs:306-323): drain `prev_data`, then append the
still-unsent tails of `data` and `crc_bytes`. -/
def crcFinalFlush (data crcBytes : List Nat) (s : SendSt) : Except LinkError (List Nat) := do
  let sendData ← drainDeque 3 s.prevData
  let out := s.out ++ s.overhead :: sendData
  let out := if s.dataStartIdx < data.length then out ++ data.drop s.dataStartIdx else out
  let out := if s.crcStartIdx < 4 then out ++ crcBytes.drop s.crcStartIdx else out
  .ok out

/-- The `CodecState::Crc` loop: exactly four `crcStep` iterations
(`crc_idx = 0..3`), the fourth followed by the final flush and `break`. -/
def crcLoop (data crcBytes : List Nat) (fuel j : Nat) (s : SendSt) : Except LinkError (List Nat) :=
  match fuel with
  | 0 => crcFinalFlush data crcBytes s
  | fuel + 1 => do
    let s ← crcStep data crcBytes j s
    if j + 1 ≥ 4 then crcFinalFlush data crcBytes s
    else crcLoop data crcBytes fuel (j + 1) s

/-- `SerialIntf::internal_send` (src/link/serial/mod.rs:128-334): the full
byte-stuffing state machine over `[header][len_lo][len_hi][data][crc]`,
returning every byte written to the serial port, terminator `0x00`
included. -/
def internalSend (header : Nat) (data : List Nat) : Except LinkError (List Nat) := do
  let lenBytes := u16LeBytes data.length
  let crcBytes := u32LeBytes (compute_crc32 data)
  let s0 : SendSt :=
    { overhead := 1, prevData := [], dataStartIdx := 0, crcStartIdx := 0, out := [] }
  let s1 ← headerStep header s0
  let s2 ← lenLsbStep (lenBytes.getD 0 0) s1
  let s3 ← lenMsbStep (lenBytes.getD 1 0) s2
  let s4 ← dataLoop data data.length 0 s3
  let out ← crcLoop data crcBytes 4 0 s4
  .ok (out ++ [0])

/-- Modelled from the spec: `cobs::decode_in_place` of the external `cobs`
crate (the un-stuffing step of the decode contract, spec §4.1 and glossary
"COBS-style stuffing"), functionalised: instead of mutating the buffer it
returns the decoded prefix.  Reads of `buff[source_index]` always see the
original bytes because `dest_index` never catches up with `source_index`.
`decode_in_place_with_sentinel(source, 0)` first XORs every byte with the
sentinel `0`, which is the identity. -/
def cobsDecodeLoop (buff : List Nat) (fuel si : Nat) (acc : List Nat) :
    Except CobsDecodeError (List Nat) :=
  match fuel with
  | 0 => .ok acc
  | fuel + 1 =>
    if si < buff.length then
      let code := buff.getD si 0
      if si + code > buff.length ∧ code ≠ 1 then
        .error .targetBufTooSmall
      else
        let acc := acc ++ byteSlice buff (si + 1) (si + code)
        let si := si + 1 + (code - 1)
        let acc := if code ≠ 0xff ∧ si < buff.length then acc ++ [0] else acc
        cobsDecodeLoop buff fuel si acc
    else
      .ok acc

/-- The buffer contents after the in-place COBS decode: the decoded bytes
overwrite the prefix, positions past `dest_index` keep their old bytes. -/
def postDecodeBuf (source : List Nat) : List Nat :=
  match cobsDecodeLoop source source.length 0 [] with
  | .ok decoded => decoded ++ source.drop decoded.length
  | .error _ => source

/-- `deserialize_from` (src/link/serial/mod.rs:47-79).  `none` models a
panic: the unconditional reads `source[0]`, `source[1]`, `source[2]` index
out of bounds whenever the buffer is shorter than 3 bytes.  After the
length guard, the CRC region reads are in bounds. -/
def deserialize_from (source : List Nat) : Option (Except LinkError (Nat × Nat)) :=
  match cobsDecodeLoop source source.length 0 [] with
  | .error e => some (.error (.decodeError e))
  | .ok decoded =>
    let buf := decoded ++ source.drop decoded.length
    if source.length < 3 then
      none
    else
      let header := buf.getD 0 0
      let wireSize := buf.getD 1 0 + 256 * buf.getD 2 0
      if wireSize + 1 + 2 + 4 > source.length then
        some (.error (.decodeError .targetBufTooSmall))
      else
        let computeCrc := compute_crc32 (byteSlice buf 3 (3 + wireSize))
        let received := byteSlice buf (3 + wireSize) (3 + wireSize + 4)
        let receivedCrc := u32FromLeBytes (received.getD 0 0) (received.getD 1 0)
          (received.getD 2 0) (received.getD 3 0)
        if computeCrc ≠ receivedCrc then some (.error .crcError)
        else some (.ok (wireSize, header))

/-- The byte-collecting loop of `SerialIntf::internal_read`
(src/link/serial/mod.rs:340-354): copy incoming bytes into the buffer
until a `0` terminator arrives (result `some received`, terminator
included), the buffer is full (result `none`, the source returns
`Ok((0, 0))`), or the reader fails (`IoError`). -/
def recvBytesLoop (stream : List Nat) (bufLen count : Nat) (acc : List Nat) :
    Except LinkError (Option (List Nat)) :=
  if count == bufLen then .ok none
  else
    match stream with
    | [] => .error .ioError
    | b :: rest =>
      if b == 0 then .ok (some (acc ++ [b]))
      else recvBytesLoop rest bufLen (count + 1) (acc ++ [b])

/-- `SerialIntf::internal_read` (src/link/serial/mod.rs:336-364) on an
incoming byte `stream` and a buffer of `bufLen` bytes: collect a frame,
run `deserialize_from` on it, then `buf.copy_within(3..3 + wire_size, 0)`
— modelled by returning the payload bytes `buf[3..3 + wire_size]` of the
decoded buffer.  The outer `none` models a panic inside
`deserialize_from`. -/
def internalRead (stream : List Nat) (bufLen : Nat) :
    Option (Except LinkError (Nat × Nat × List Nat)) :=
  match recvBytesLoop stream bufLen 0 [] with
  | .error e => some (.error e)
  | .ok none => some (.ok (0, 0, []))
  | .ok (some received) =>
    match deserialize_from received with
    | none => none
    | some (.error e) => some (.error e)
    | some (.ok (wireSize, head)) =>
      some (.ok (wireSize, head, byteSlice (postDecodeBuf received) 3 (3 + wireSize)))

/-- Feeding the frame produced by `internal_send` into `internal_read`
(with the `COBS_BUF_SIZE = 1517` receive buffer of `connect`): the value
the decoder hands back, as `(header, payload)`. -/
def serialRoundTrip (header : Nat) (data : List Nat) :
    Option (Except LinkError (Nat × List Nat)) :=
  match internalSend header data with
  | .error e => some (.error e)
  | .ok wire =>
    match internalRead wire 1517 with
    | none => none
    | some (.error e) => some (.error e)
    | some (.ok (_, hd, payload)) => some (.ok (hd, payload))

/-- Constants from src/lib.rs:12-16 and the serial connect/lease constants. -/
def Z_BATCH_UNICAST_SIZE : Nat := 2048

/-- `Z_MAX_MTU` from src/lib.rs (capacity of the `ZVec` buffers). -/
def Z_MAX_MTU : Nat := 2048

/-- `Z_PROTO_VERSION` from src/lib.rs. -/
def Z_PROTO_VERSION : Nat := 0x09

/-- `Z_SN_RESOLUTION` from src/lib.rs. -/
def Z_SN_RESOLUTION : Nat := 0x02

/-- `Z_REQ_RESOLUTION` from src/lib.rs. -/
def Z_REQ_RESOLUTION : Nat := 0x02

/-- `Z_TRANSPORT_LEASE` (used by `Unicast::handshake`; spec §6: 10000 ms). -/
def Z_TRANSPORT_LEASE : Nat := 10000

/-- Modelled from the spec: `Z_DEFAULT_RESOLUTION_SIZE` is imported by
src/protocol/transport/init.rs from a module not under src/; spec §4.4.1:
"Default when `S==0`: all selectors = 0b10". -/
def Z_DEFAULT_RESOLUTION_SIZE : Nat := 0b10

/-- Modelled from the spec: `Z_DEFAULT_MULTICAST_BATCH_SIZE` is imported by
src/protocol/transport/init.rs from a module not under src/; spec §4.4.1:
"Default when `S==0`: ... `batch_size` = 8192". -/
def Z_DEFAULT_MULTICAST_BATCH_SIZE : Nat := 8192

/-- `heapless::Vec::extend_from_slice` on the `ZVec` writer
(src/iobuf/mod.rs:142-150): fails with `DidntWrite` — surfacing as
`TransportError::EncodeError` — when the capacity `Z_MAX_MTU` would be
exceeded. -/
def zvecWrite (buf bytes : List Nat) : Except TransportError (List Nat) :=
  if buf.length + bytes.length ≤ Z_MAX_MTU then .ok (buf ++ bytes) else .error .encodeError

/-- `Cookie` from src/protocol/transport/init.rs:88-121: a 1024-byte slot
and the significant length. -/
structure Cookie where
  bytes : List Nat
  len : Nat
deriving Repr, DecidableEq

/-- `Cookie::from_slice` (src/protocol/transport/init.rs:105-113); the
`copy_from_slice` panics (`none`) when the slice exceeds the 1024-byte
slot. -/
def Cookie.fromSlice (slice : List Nat) : Option Cookie :=
  if slice.length ≤ 1024 then
    some ⟨slice ++ List.replicate (1024 - slice.length) 0, slice.length⟩
  else none

/-- `Cookie::as_slice` (src/protocol/transport/init.rs:101-103). -/
def Cookie.asSlice (c : Cookie) : List Nat :=
  c.bytes.take c.len

/-- `InitSyn` (also used for `InitAck`) from
src/protocol/transport/init.rs:133-142; the identifier is its `u128`
value. -/
structure InitSynS where
  zid : Nat
  cookie : Option Cookie
  batchSize : Nat
  whatami : WhatAmI
  reqIdRes : Nat
  seqNumRes : Nat
  version : Nat
deriving Repr, DecidableEq

/-- `OpenSyn` (also used for `OpenAck`) from
src/protocol/transport/open.rs:48-53. -/
structure OpenSynS where
  lease : Nat
  initialSn : Nat
  cookie : Option (List Nat)
deriving Repr, DecidableEq

/-- `TransportBody` (referenced by src/transport/unicast.rs and the
message codecs; its own declaration is not under src/). -/
inductive TransportBody
  | initSyn (m : InitSynS)
  | initAck (m : InitSynS)
  | openSyn (m : OpenSynS)
  | openAck (m : OpenSynS)
deriving Repr, DecidableEq

/-- `Z_MID_T_INIT` (src/protocol/transport/init.rs:125). -/
def Z_MID_T_INIT : Nat := 0x01

/-- `Z_MID_T_OPEN` (src/protocol/transport/open.rs:40). -/
def Z_MID_T_OPEN : Nat := 0x02

/-- Flag `A` (bit 5) shared by the INIT and OPEN codecs. -/
def flagA : Nat := 1 <<< 5

/-- Flag `S` of the INIT codec (bit 6). -/
def flagS : Nat := 1 <<< 6

/-- Flag `T` of the OPEN codec (bit 6). -/
def flagT : Nat := 1 <<< 6

/-- Flag `Z` (bit 7). -/
def flagZ : Nat := 1 <<< 7

/-- `InitSyn::new` (src/protocol/transport/init.rs:145-164), body only. -/
def InitSynS.new (whatami : WhatAmI) (zid : Nat) : InitSynS :=
  { version := Z_PROTO_VERSION, whatami := whatami, zid := zid, cookie := none,
    reqIdRes := Z_REQ_RESOLUTION, seqNumRes := Z_SN_RESOLUTION,
    batchSize := Z_BATCH_UNICAST_SIZE }

/-- `InitSyn::header` (src/protocol/transport/init.rs:166-177). -/
def InitSynS.header (m : InitSynS) : Nat :=
  if m.batchSize ≠ Z_DEFAULT_MULTICAST_BATCH_SIZE
      ∨ m.seqNumRes ≠ Z_DEFAULT_RESOLUTION_SIZE
      ∨ m.reqIdRes ≠ Z_DEFAULT_RESOLUTION_SIZE then
    Z_MID_T_INIT ||| flagS
  else
    Z_MID_T_INIT

/-- `InitSyn::encode` (src/protocol/transport/init.rs:179-215).  The
`self.zid.size() as u8 - 1` is `u8` arithmetic: it wraps on the all-zero
identifier (`size() == 0`), written here as `(size + 255) % 256`, and the
`u8` shift discards bits above 8. -/
def InitSynS.encode (m : InitSynS) (w : List Nat) : Except TransportError (List Nat) := do
  let header := m.header
  let w ← zvecWrite w [header]
  let w ← zvecWrite w [m.version]
  let flags := ((((ZenohID.size m.zid + 255) % 256) <<< 4) % 256) ||| whatAmIBits m.whatami
  let w ← zvecWrite w [flags]
  let w ← zvecWrite w ((leBytes16 m.zid).take (ZenohID.size m.zid))
  let w ←
    if header &&& flagS == flagS then do
      let cbyte := (m.seqNumRes &&& 0x03) ||| ((m.reqIdRes &&& 0x03) <<< 2)
      let w ← zvecWrite w [cbyte]
      zvecWrite w (u16LeBytes m.batchSize)
    else
      .ok w
  if header &&& flagA == flagA then
    match m.cookie with
    | some cookie => zvecWrite w cookie.asSlice
    | none => .ok w
  else
    .ok w

/-- `ZVecSlice::read_u8` (src/iobuf/mod.rs:179-187) on the list of
not-yet-consumed bytes. -/
def readU8 (bs : List Nat) : Except TransportError (Nat × List Nat) :=
  match bs with
  | [] => .error .decodeError
  | b :: rest => .ok (b, rest)

/-- `ZVecSlice::read_exact` (src/iobuf/mod.rs:165-177): fails when the
reader holds no byte at all or fewer than `n`. -/
def readExact (n : Nat) (bs : List Nat) : Except TransportError (List Nat × List Nat) :=
  if bs.length == 0 then .error .decodeError
  else if n > bs.length then .error .decodeError
  else .ok (bs.take n, bs.drop n)

/-- `ZVecSlice::read_slice_in_place` (src/iobuf/mod.rs:189-200): same
bounds discipline as `read_exact`. -/
def readSliceInPlace (n : Nat) (bs : List Nat) : Except TransportError (List Nat × List Nat) :=
  if bs.length == 0 then .error .decodeError
  else if n > bs.length then .error .decodeError
  else .ok (bs.take n, bs.drop n)

/-- `u128::from_le_bytes`: value of a little-endian byte list. -/
def leValue (bs : List Nat) : Nat :=
  bs.foldr (fun b acc => b + 256 * acc) 0

/-- `InitSyn::decode` (src/protocol/transport/init.rs:217-300), given the
already-read header byte and the remaining reader bytes.  `none` models a
panic: the `unreachable!` inside `WhatAmI::from` on low bits `0b11`, the
`unimplemented!` on flag `Z`, or an oversized cookie slot copy.  The
single-slot cookie pool (`box_pool!(P: Cookie)`) is modelled as having its
slot free. -/
def InitSynS.decode (header : Nat) (bs : List Nat) :
    Option (Except TransportError TransportBody) :=
  match readU8 bs with
  | .error e => some (.error e)
  | .ok (version, bs) =>
    match readU8 bs with
    | .error e => some (.error e)
    | .ok (cbyte, bs) =>
      match whatAmIFrom cbyte with
      | none => none
      | some whatami =>
        let zidLen := ((cbyte &&& 0xF0) >>> 4) + 1
        match readExact zidLen bs with
        | .error e => some (.error e)
        | .ok (zidBytes, bs) =>
          let zid := leValue zidBytes
          let sizeParams : Except TransportError ((Nat × Nat × Nat) × List Nat) :=
            if header &&& flagS == flagS then do
              let (cbyte2, bs) ← readU8 bs
              let (batchBytes, bs) ← readExact 2 bs
              let batchSize := batchBytes.getD 0 0 + 256 * batchBytes.getD 1 0
              .ok ((cbyte2 &&& 0x03, (cbyte2 &&& 0x0C) >>> 2, batchSize), bs)
            else
              .ok ((Z_DEFAULT_RESOLUTION_SIZE, Z_DEFAULT_RESOLUTION_SIZE,
                    Z_DEFAULT_MULTICAST_BATCH_SIZE), bs)
          match sizeParams with
          | .error e => some (.error e)
          | .ok ((seqNumRes, reqIdRes, batchSize), bs) =>
            let cookieStep : Option (Except TransportError (Option Cookie × List Nat)) :=
              if header &&& flagA == flagA then
                match varintDecode 8 bs with
                | .error e => some (.error e)
                | .ok (cookieLen, consumed) =>
                  match readSliceInPlace cookieLen (bs.drop consumed) with
                  | .error e => some (.error e)
                  | .ok (cookieBytes, bs) =>
                    match Cookie.fromSlice cookieBytes with
                    | none => none
                    | some cookie => some (.ok (some cookie, bs))
              else
                some (.ok (none, bs))
            match cookieStep with
            | none => none
            | some (.error e) => some (.error e)
            | some (.ok (cookie, _bs)) =>
              if header &&& flagZ == flagZ then
                none
              else
                let m : InitSynS :=
                  { zid := zid, cookie := cookie, batchSize := batchSize,
                    whatami := whatami, reqIdRes := reqIdRes,
                    seqNumRes := seqNumRes, version := version }
                if header &&& flagA == flagA then
                  some (.ok (.initAck m))
                else
                  some (.ok (.initSyn m))

/-- `OpenSyn::new` (src/protocol/transport/open.rs:56-62). -/
def OpenSynS.new (lease initialSn : Nat) (cookie : Option (List Nat)) : OpenSynS :=
  { lease := lease, initialSn := initialSn, cookie := cookie }

/-- `OpenSyn::header` (src/protocol/transport/open.rs:64-72). -/
def OpenSynS.header (m : OpenSynS) : Nat :=
  if m.lease % 1000 == 0 then Z_MID_T_OPEN ||| flagT else Z_MID_T_OPEN

/-- `OpenSyn::encode` (src/protocol/transport/open.rs:74-98); the varint
writer is `varintEncode` (see there). -/
def OpenSynS.encode (m : OpenSynS) (w : List Nat) : Except TransportError (List Nat) := do
  let header := m.header
  let w ← zvecWrite w [header]
  let w ←
    if header &&& flagT == flagT then zvecWrite w (varintEncode (m.lease / 1000))
    else zvecWrite w (varintEncode m.lease)
  let w ← zvecWrite w (varintEncode m.initialSn)
  if header &&& flagA == 0 then
    match m.cookie with
    | some cookie => do
      let w ← zvecWrite w (varintEncode cookie.length)
      zvecWrite w cookie
    | none => .ok w
  else
    .ok w

/-- `UnicastParams` from src/transport/unicast.rs:20-31. -/
structure UnicastParams where
  zid : Nat
  batchSize : Nat
  initialSnRx : Nat
  initialSnTx : Nat
  lease : Nat
  whatami : WhatAmI
  keyIdRes : Nat
  reqIdRes : Nat
  seqNumRes : Nat
  isQos : Bool
deriving Repr, DecidableEq

/-- `impl Default for UnicastParams` (src/transport/unicast.rs:33-48);
`WhatAmI`'s `#[default]` variant is `Client`. -/
def UnicastParams.default : UnicastParams :=
  { zid := 0, batchSize := 0, initialSnRx := 0, initialSnTx := 0,
    lease := Z_TRANSPORT_LEASE, whatami := .client, keyIdRes := 0,
    reqIdRes := 0, seqNumRes := 0, isQos := false }

/-- The INIT-ACK size-parameter negotiation of `Unicast::handshake`
(src/transport/unicast.rs:104-121): each of the three checks either keeps
the ack's value or aborts with `OpenSnResolution`. -/
def negotiateSizeParams (params : UnicastParams)
    (ackSeqNumRes ackReqIdRes ackBatchSize : Nat) : Except TransportError UnicastParams :=
  if params.seqNumRes ≥ ackSeqNumRes then
    let params := { params with seqNumRes := ackSeqNumRes }
    if params.reqIdRes ≥ ackReqIdRes then
      let params := { params with reqIdRes := ackReqIdRes }
      if params.batchSize ≥ ackBatchSize then
        .ok { params with batchSize := ackBatchSize }
      else
        .error .openSnResolution
    else
      .error .openSnResolution
  else
    .error .openSnResolution

/-- The selector-to-bit-width expansion of `Unicast::handshake`
(src/transport/unicast.rs:122-123), `u8` arithmetic. -/
def expandResolutions (params : UnicastParams) : UnicastParams :=
  { params with keyIdRes := (0x08 <<< params.keyIdRes) % 256,
                reqIdRes := (0x08 <<< params.reqIdRes) % 256 }

/-- The syn-side `UnicastParams` right before the INIT-ACK is processed
(src/transport/unicast.rs:65-77): the defaults overwritten with the
`InitSyn::new` size parameters. -/
def synParams : UnicastParams :=
  { UnicastParams.default with
      seqNumRes := (InitSynS.new .client 0).seqNumRes,
      reqIdRes := (InitSynS.new .client 0).reqIdRes,
      batchSize := (InitSynS.new .client 0).batchSize }

deriving instance DecidableEq for Except

/-- `forceNat` is the identity. -/
theorem forceNat_eq (n : Nat) (k : Nat → α) : forceNat n k = k n := by
  cases n <;> rfl

/-- `crcFold` is the plain left fold of `crc32Byte`. -/
theorem crcFold_eq_foldl (data : List Nat) (crc : Nat) :
    crcFold crc data = List.foldl crc32Byte crc data := by
  induction data generalizing crc with
  | nil => rfl
  | cons b rest ih => simp [crcFold, forceNat_eq, List.foldl, ih]

/-- Sanity: spec §8 boundary scenario 1 — the empty payload round-trips
(header 0, empty payload, `CRC32([]) = 0`). -/
theorem roundTrip_empty_payload : serialRoundTrip 0 [] = some (.ok (0, [])) := by decide

/-- Sanity: spec §8 boundary scenario 2 — an all-zero 3-byte payload
round-trips. -/
theorem roundTrip_zero_payload : serialRoundTrip 0x01 [0, 0, 0] = some (.ok (0x01, [0, 0, 0])) := by
  decide

/-- Sanity: a small mixed payload round-trips. -/
theorem roundTrip_small_payload : serialRoundTrip 0x01 [1, 2, 3] = some (.ok (0x01, [1, 2, 3])) := by
  decide

/-- Sanity: a 250-byte payload with interior zero bytes round-trips; the
codec is correct below the 254-byte run boundary. -/
theorem roundTrip_250_bytes :
    serialRoundTrip 7 ((List.range 250).map (fun i => i % 256)) =
      some (.ok (7, (List.range 250).map (fun i => i % 256))) := by decide

/-- C1: the claim fails on the code.  For the 255-byte all-`0x01` payload
the stuffing run reaches 254 bytes, `internal_send` flushes it with
overhead `0xFF` but then skips the next source byte (`data_idx` is
advanced without the byte being examined or counted), so the frame is
malformed and `internal_read`/`deserialize_from` rejects it instead of
returning the original header and payload. -/
theorem c1_encode_decode_roundtrip_fails_at_255 :
    serialRoundTrip 0x01 (List.replicate 255 0x01) =
      some (.error (.decodeError .targetBufTooSmall)) ∧
    serialRoundTrip 0x01 (List.replicate 255 0x01) ≠
      some (.ok (0x01, List.replicate 255 0x01)) := by decide

/-- C2: the claim fails on the code.  For the payload of 254 `0x02` bytes
followed by one `0x00` byte, the `0x00` is the byte skipped right after
the 254-byte run flush; it is later written verbatim into the frame, so
the encoded output contains an interior `0x00` before the terminator. -/
theorem c2_interior_zero_emitted_at_255 :
    (internalSend 0x01 (List.replicate 254 0x02 ++ [0x00])).map
      (fun out => out.dropLast.contains 0) = .ok true := by decide

/-- C3: the claim fails on the code.  For the 255-byte all-`0x01` payload,
after the `0xFF`-flushed run (frame bytes 3..257) the encoder does not
start a fresh run `[0x02, 0x01]` covering the final payload byte: the
next emitted byte is the overhead `0x05` of a block that carries the
skipped final payload byte plus the four CRC bytes (five bytes under an
overhead that counts four). -/
theorem c3_max_run_flush_skips_following_byte :
    (internalSend 0x01 (List.replicate 255 0x01)).map
      (fun out => byteSlice out 258 260) = .ok [0x05, 0x01] ∧ (0x05 : Nat) ≠ 0x02 := by decide

/-- C9: decoding an INIT message whose flags byte carries the reserved
whatami value `0b11` panics (`unreachable!` in `WhatAmI::from`, modelled
as `none`) instead of returning the `InvalidParameter` error. -/
theorem c9_reserved_whatami_panics :
    whatAmIFrom 0x03 = none ∧
    InitSynS.decode 0x01 [0x09, 0x03, 0x49] = none := by decide

/-- C7 counterexample: for the all-zero identifier `ZenohID::size` returns
`0`, not `max 1 (16 - trailingZeroBytes) = 1`, so the claimed "always at
least 1" fails. -/
theorem c7_counterexample_zero_id :
    ZenohID.size 0 = 0 ∧ max 1 (16 - trailingZeroBytes 0) = 1 := by decide

/-- C8 counterexample: for a `u64` (`b = 64`), the claim predicts reads of
up to `ceil(64/7) + 1 = 11` bytes and an error when the continuation bit
is still set; on eleven `0x80` bytes the decoder instead stops after
`8 + 1 = 9` bytes and silently returns `Ok(0)`. -/
theorem c8_counterexample_varint_silent_truncation :
    varintDecode 8 (List.replicate 11 0x80) = .ok (0, 9) := by decide

/-- C10 counterexample: on the one-byte buffer `[0x00]` (a lone frame
terminator, reachable through `internal_read`), `deserialize_from` reads
`source[1]` out of bounds — a panic (`none`), not `Ok` or a `LinkError`. -/
theorem c10_counterexample_short_buffer :
    deserialize_from [0x00] = none ∧ internalRead [0x00] 1517 = none := by decide

/-- C4: the INIT-ACK size-parameter negotiation fails with
`OpenSnResolution` exactly when the ack proposes a larger `seq_num_res`,
`req_id_res` or `batch_size` than the syn offered; otherwise the
negotiated values stored in `UnicastParams` (before the
selector-to-bit-width expansion of lines 122-123) are exactly the ack's. -/
theorem c4_initack_negotiation (p : UnicastParams) (ackSeq ackReq ackBatch : Nat) :
    (negotiateSizeParams p ackSeq ackReq ackBatch = .error .openSnResolution ↔
      (p.seqNumRes < ackSeq ∨ p.reqIdRes < ackReq ∨ p.batchSize < ackBatch))
    ∧ (¬(p.seqNumRes < ackSeq ∨ p.reqIdRes < ackReq ∨ p.batchSize < ackBatch) →
      negotiateSizeParams p ackSeq ackReq ackBatch =
        .ok { p with seqNumRes := ackSeq, reqIdRes := ackReq, batchSize := ackBatch }) := by
  unfold negotiateSizeParams
  split_ifs <;> refine ⟨?_, ?_⟩ <;> simp_all <;> omega

/-- C4 witness: spec §8 scenario 5 — the syn offers selectors `0b10` and
batch 2048; an ack answering `(1, 1, 1024)` is accepted with exactly the
ack's values stored. -/
theorem c4_initack_negotiation_witness :
    negotiateSizeParams synParams 1 1 1024 =
      .ok { synParams with seqNumRes := 1, reqIdRes := 1, batchSize := 1024 } :=
  (c4_initack_negotiation synParams 1 1 1024).2 (by decide)

theorem cookie_fromSlice_asSlice (c : List Nat) (ck : Cookie)
    (hck : Cookie.fromSlice c = some ck) : ck.asSlice = c := by
  unfold Cookie.fromSlice at hck
  split at hck
  · cases hck
    simp only [Cookie.asSlice]
    exact List.take_left c _
  · cases hck

theorem varintEncodeAux_length (fuel n k : Nat) (h : n < 128 ^ (k + 1)) :
    (varintEncodeAux fuel n).length ≤ k + 1 := by
  induction fuel generalizing n k with
  | zero => simp [varintEncodeAux]
  | succ fuel ih =>
    rw [varintEncodeAux]
    split
    · simp
    · rename_i hn
      simp only [List.length_cons]
      have hk : 1 ≤ k := by
        rcases Nat.eq_zero_or_pos k with hk0 | hk1
        · subst hk0; simp at h; omega
        · exact hk1
      have hdiv : n / 128 < 128 ^ k := by
        rw [Nat.div_lt_iff_lt_mul (by norm_num)]
        calc n < 128 ^ (k + 1) := h
        _ = 128 ^ k * 128 := by rw [Nat.pow_succ]
      obtain ⟨k', rfl⟩ : ∃ k', k = k' + 1 := ⟨k - 1, by omega⟩
      have := ih (n / 128) k' hdiv
      omega

theorem varintEncode_length (n k : Nat) (h : n < 128 ^ (k + 1)) :
    (varintEncode n).length ≤ k + 1 :=
  varintEncodeAux_length n n k h

theorem zvecWrite_ok (a b : List Nat) (h : a.length + b.length ≤ 2048) :
    zvecWrite a b = .ok (a ++ b) := by
  simp [zvecWrite, Z_MAX_MTU, h]

theorem exceptBind_ok {α β ε : Type} (a : α) (f : α → Except ε β) :
    (Except.ok a : Except ε α) >>= f = f a := rfl

theorem c5_opensyn_echoes_initack_cookie (c : List Nat) (sn : Nat)
    (hc : c.length ≤ 1024) (hsn : sn < 2 ^ 32) (ck : Cookie)
    (hck : Cookie.fromSlice c = some ck) :
    OpenSynS.encode (OpenSynS.new Z_TRANSPORT_LEASE sn (some ck.asSlice)) [] =
      .ok ([0x42] ++ varintEncode 10 ++ varintEncode sn ++ varintEncode c.length ++ c) := by
  have hlen_sn : (varintEncode sn).length ≤ 5 :=
    varintEncode_length sn 4 (by calc sn < 2 ^ 32 := hsn
                                  _ < 128 ^ 5 := by norm_num)
  have hlen_cl : (varintEncode c.length).length ≤ 2 :=
    varintEncode_length _ 1 (by omega)
  have h10 : varintEncode (Z_TRANSPORT_LEASE / 1000) = [10] := by decide
  have hv10 : varintEncode 10 = [10] := by decide
  have w1 : zvecWrite [] [66] = .ok [66] := by decide
  have w2 : zvecWrite [66] [10] = .ok [66, 10] := by decide
  have w3 : zvecWrite [66, 10] (varintEncode sn) = .ok ([66, 10] ++ varintEncode sn) :=
    zvecWrite_ok _ _ (by simp; omega)
  have w4 : zvecWrite ([66, 10] ++ varintEncode sn) (varintEncode c.length) =
      .ok ([66, 10] ++ varintEncode sn ++ varintEncode c.length) :=
    zvecWrite_ok _ _ (by simp; omega)
  have w5 : zvecWrite ([66, 10] ++ varintEncode sn ++ varintEncode c.length) c =
      .ok ([66, 10] ++ varintEncode sn ++ varintEncode c.length ++ c) :=
    zvecWrite_ok _ _ (by simp; omega)
  have hh : (OpenSynS.new Z_TRANSPORT_LEASE sn (some c)).header = 66 := by
    unfold OpenSynS.header OpenSynS.new
    norm_num
    decide
  have hc1 : (66 : Nat) &&& 64 = 64 := by decide
  have hc2 : (66 : Nat) &&& 32 = 0 := by decide
  rw [cookie_fromSlice_asSlice c ck hck]
  simp only [OpenSynS.encode]
  simp only [hh]
  simp only [OpenSynS.new, flagT, flagA, h10]
  simp only [hc1, hc2, Nat.shiftLeft_eq, eq_self_iff_true, if_true]
  norm_num
  simp only [h10, w1, w2, w3, w4, w5, exceptBind_ok]
  simp [hv10, List.append_assoc]

theorem c5_witness :
    OpenSynS.encode (OpenSynS.new Z_TRANSPORT_LEASE 0
        (some (Cookie.asSlice ⟨[0xCA, 0xFE, 0xF0, 0x0D] ++ List.replicate 1020 0, 4⟩))) [] =
      .ok ([0x42] ++ varintEncode 10 ++ varintEncode 0 ++ varintEncode 4 ++
        [0xCA, 0xFE, 0xF0, 0x0D]) :=
  c5_opensyn_echoes_initack_cookie [0xCA, 0xFE, 0xF0, 0x0D] 0 (by decide) (by decide)
    ⟨[0xCA, 0xFE, 0xF0, 0x0D] ++ List.replicate 1020 0, 4⟩ rfl

/-- Helper for C6: bits cleared by one mask stay cleared under a further
conjunction. -/
theorem land_land_eq_zero (x c m : Nat) (h : c &&& m = 0) : (x &&& c) &&& m = 0 := by
  apply Nat.eq_of_testBit_eq
  intro i
  have hb : (c &&& m).testBit i = Nat.testBit 0 i := by rw [h]
  simp only [Nat.testBit_land, Nat.zero_testBit] at hb ⊢
  cases hxc : x.testBit i <;> cases hcc : c.testBit i <;> simp_all

/-- C6: for every PRNG output `x` (an arbitrary `u32`) and every selector
`r < 4`, the handshake's initial transmit sequence number
`x & !_z_sn_modulo_mask(r)` satisfies `sn & _z_sn_modulo_mask(r) == 0`,
with the mask values of src/transport/unicast.rs:171-179. -/
theorem c6_initial_sn_tx_masked (x r : Nat) (_hx : x < 2 ^ 32) (hr : r < 4) :
    ∃ m sn, _z_sn_modulo_mask r = some m ∧ initialSnTx x r = some sn ∧ sn &&& m = 0 := by
  interval_cases r <;>
    exact ⟨_, _, rfl, rfl, land_land_eq_zero _ _ _ (by decide)⟩

/-- C6 witness: selector `0b01` and a concrete PRNG output. -/
theorem c6_witness :
    ∃ m sn, _z_sn_modulo_mask 1 = some m ∧ initialSnTx 0xDEADBEEF 1 = some sn ∧ sn &&& m = 0 :=
  c6_initial_sn_tx_masked 0xDEADBEEF 1 (by decide) (by decide)

/-- `log2F` computes `Nat.log2` whenever the fuel covers the value. -/
theorem log2F_eq_log2 (fuel : Nat) : ∀ n : Nat, n < 2 ^ fuel → log2F fuel n = Nat.log2 n := by
  induction fuel with
  | zero =>
    intro n h
    interval_cases n
    simp [log2F, Nat.log2]
  | succ f ih =>
    intro n h
    rw [log2F]
    by_cases h2 : n ≥ 2
    · rw [if_pos h2, ih (n / 2) (by omega)]
      conv_rhs => rw [Nat.log2]
      rw [if_pos h2]
    · rw [if_neg h2]
      conv_rhs => rw [Nat.log2]
      rw [if_neg h2]

/-- For a nonzero identifier below `2 ^ 128`, `ZenohID::size` is the
byte index of the top set bit plus one. -/
theorem ZenohID.size_eq_log2 (id : Nat) (h : id < 2 ^ 128) (hne : id ≠ 0) :
    ZenohID.size id = Nat.log2 id / 8 + 1 := by
  unfold ZenohID.size leadingZeros128
  rw [if_neg hne, log2F_eq_log2 128 id h]
  have hlog : Nat.log2 id ≤ 127 := by
    have h2 := (Nat.log2_lt hne).mpr h
    omega
  omega

/-- Little-endian bytes above the value's magnitude are zero. -/
theorem byteAt_eq_zero (id k : Nat) (h : id < 2 ^ (8 * k)) : byteAt id k = 0 := by
  unfold byteAt
  rw [Nat.div_eq_of_lt h]

/-- The byte holding the top set bit of a nonzero value is nonzero. -/
theorem byteAt_top_ne_zero (id : Nat) (hne : id ≠ 0) :
    byteAt id (Nat.log2 id / 8) ≠ 0 := by
  set L := Nat.log2 id with hL
  set q := L / 8 with hq
  set r := L % 8 with hr
  have hqr : 8 * q + r = L := by omega
  have hlo : 2 ^ L ≤ id := Nat.log2_self_le hne
  have hhi : id < 2 ^ (L + 1) := Nat.lt_log2_self
  have hdlo : 2 ^ r ≤ id / 2 ^ (8 * q) := by
    rw [Nat.le_div_iff_mul_le (Nat.pos_pow_of_pos _ (by norm_num))]
    calc 2 ^ r * 2 ^ (8 * q) = 2 ^ (8 * q + r) := by rw [← Nat.pow_add]; ring_nf
    _ = 2 ^ L := by rw [hqr]
    _ ≤ id := hlo
  have hdhi : id / 2 ^ (8 * q) < 2 ^ (r + 1) := by
    rw [Nat.div_lt_iff_lt_mul (Nat.pos_pow_of_pos _ (by norm_num))]
    calc id < 2 ^ (L + 1) := hhi
    _ = 2 ^ (r + 1) * 2 ^ (8 * q) := by rw [← Nat.pow_add]; congr 1; omega
  have hr8 : r < 8 := Nat.mod_lt _ (by norm_num)
  have h256 : 2 ^ (r + 1) ≤ 256 := by
    calc 2 ^ (r + 1) ≤ 2 ^ 8 := Nat.pow_le_pow_right (by norm_num) (by omega)
    _ = 256 := by norm_num
  have h1 : 1 ≤ 2 ^ r := Nat.one_le_two_pow
  unfold byteAt
  rw [Nat.mod_eq_of_lt (by omega)]
  omega

/-- The trailing-zero-byte count of a nonzero identifier below `2 ^ 128`. -/
theorem trailingZeroBytes_eq (id : Nat) (h : id < 2 ^ 128) (hne : id ≠ 0) :
    trailingZeroBytes id = 15 - Nat.log2 id / 8 := by
  have hlog : Nat.log2 id ≤ 127 := by
    have h2 := (Nat.log2_lt hne).mpr h
    omega
  have hz : ∀ k, Nat.log2 id / 8 < k → byteAt id k = 0 := by
    intro k hk
    apply byteAt_eq_zero
    calc id < 2 ^ (Nat.log2 id + 1) := Nat.lt_log2_self
    _ ≤ 2 ^ (8 * k) := Nat.pow_le_pow_right (by norm_num) (by omega)
  have hnz := byteAt_top_ne_zero id hne
  obtain ⟨q, hq, hq15⟩ : ∃ q, Nat.log2 id / 8 = q ∧ q ≤ 15 :=
    ⟨Nat.log2 id / 8, rfl, by omega⟩
  rw [hq] at hz hnz ⊢
  clear hq hlog h
  interval_cases q
  · have hb : (byteAt id 0 == 0) = false := by simp [hnz]
    simp [trailingZeroBytes, List.takeWhile_cons, hz 1 (by norm_num), hz 2 (by norm_num), hz 3 (by norm_num), hz 4 (by norm_num), hz 5 (by norm_num), hz 6 (by norm_num), hz 7 (by norm_num), hz 8 (by norm_num), hz 9 (by norm_num), hz 10 (by norm_num), hz 11 (by norm_num), hz 12 (by norm_num), hz 13 (by norm_num), hz 14 (by norm_num), hz 15 (by norm_num), hb]
  · have hb : (byteAt id 1 == 0) = false := by simp [hnz]
    simp [trailingZeroBytes, List.takeWhile_cons, hz 2 (by norm_num), hz 3 (by norm_num), hz 4 (by norm_num), hz 5 (by norm_num), hz 6 (by norm_num), hz 7 (by norm_num), hz 8 (by norm_num), hz 9 (by norm_num), hz 10 (by norm_num), hz 11 (by norm_num), hz 12 (by norm_num), hz 13 (by norm_num), hz 14 (by norm_num), hz 15 (by norm_num), hb]
  · have hb : (byteAt id 2 == 0) = false := by simp [hnz]
    simp [trailingZeroBytes, List.takeWhile_cons, hz 3 (by norm_num), hz 4 (by norm_num), hz 5 (by norm_num), hz 6 (by norm_num), hz 7 (by norm_num), hz 8 (by norm_num), hz 9 (by norm_num), hz 10 (by norm_num), hz 11 (by norm_num), hz 12 (by norm_num), hz 13 (by norm_num), hz 14 (by norm_num), hz 15 (by norm_num), hb]
  · have hb : (byteAt id 3 == 0) = false := by simp [hnz]
    simp [trailingZeroBytes, List.takeWhile_cons, hz 4 (by norm_num), hz 5 (by norm_num), hz 6 (by norm_num), hz 7 (by norm_num), hz 8 (by norm_num), hz 9 (by norm_num), hz 10 (by norm_num), hz 11 (by norm_num), hz 12 (by norm_num), hz 13 (by norm_num), hz 14 (by norm_num), hz 15 (by norm_num), hb]
  · have hb : (byteAt id 4 == 0) = false := by simp [hnz]
    simp [trailingZeroBytes, List.takeWhile_cons, hz 5 (by norm_num), hz 6 (by norm_num), hz 7 (by norm_num), hz 8 (by norm_num), hz 9 (by norm_num), hz 10 (by norm_num), hz 11 (by norm_num), hz 12 (by norm_num), hz 13 (by norm_num), hz 14 (by norm_num), hz 15 (by norm_num), hb]
  · have hb : (byteAt id 5 == 0) = false := by simp [hnz]
    simp [trailingZeroBytes, List.takeWhile_cons, hz 6 (by norm_num), hz 7 (by norm_num), hz 8 (by norm_num), hz 9 (by norm_num), hz 10 (by norm_num), hz 11 (by norm_num), hz 12 (by norm_num), hz 13 (by norm_num), hz 14 (by norm_num), hz 15 (by norm_num), hb]
  · have hb : (byteAt id 6 == 0) = false := by simp [hnz]
    simp [trailingZeroBytes, List.takeWhile_cons, hz 7 (by norm_num), hz 8 (by norm_num), hz 9 (by norm_num), hz 10 (by norm_num), hz 11 (by norm_num), hz 12 (by norm_num), hz 13 (by norm_num), hz 14 (by norm_num), hz 15 (by norm_num), hb]
  · have hb : (byteAt id 7 == 0) = false := by simp [hnz]
    simp [trailingZeroBytes, List.takeWhile_cons, hz 8 (by norm_num), hz 9 (by norm_num), hz 10 (by norm_num), hz 11 (by norm_num), hz 12 (by norm_num), hz 13 (by norm_num), hz 14 (by norm_num), hz 15 (by norm_num), hb]
  · have hb : (byteAt id 8 == 0) = false := by simp [hnz]
    simp [trailingZeroBytes, List.takeWhile_cons, hz 9 (by norm_num), hz 10 (by norm_num), hz 11 (by norm_num), hz 12 (by norm_num), hz 13 (by norm_num), hz 14 (by norm_num), hz 15 (by norm_num), hb]
  · have hb : (byteAt id 9 == 0) = false := by simp [hnz]
    simp [trailingZeroBytes, List.takeWhile_cons, hz 10 (by norm_num), hz 11 (by norm_num), hz 12 (by norm_num), hz 13 (by norm_num), hz 14 (by norm_num), hz 15 (by norm_num), hb]
  · have hb : (byteAt id 10 == 0) = false := by simp [hnz]
    simp [trailingZeroBytes, List.takeWhile_cons, hz 11 (by norm_num), hz 12 (by norm_num), hz 13 (by norm_num), hz 14 (by norm_num), hz 15 (by norm_num), hb]
  · have hb : (byteAt id 11 == 0) = false := by simp [hnz]
    simp [trailingZeroBytes, List.takeWhile_cons, hz 12 (by norm_num), hz 13 (by norm_num), hz 14 (by norm_num), hz 15 (by norm_num), hb]
  · have hb : (byteAt id 12 == 0) = false := by simp [hnz]
    simp [trailingZeroBytes, List.takeWhile_cons, hz 13 (by norm_num), hz 14 (by norm_num), hz 15 (by norm_num), hb]
  · have hb : (byteAt id 13 == 0) = false := by simp [hnz]
    simp [trailingZeroBytes, List.takeWhile_cons, hz 14 (by norm_num), hz 15 (by norm_num), hb]
  · have hb : (byteAt id 14 == 0) = false := by simp [hnz]
    simp [trailingZeroBytes, List.takeWhile_cons, hz 15 (by norm_num), hb]
  · have hb : (byteAt id 15 == 0) = false := by simp [hnz]
    simp [trailingZeroBytes, List.takeWhile_cons, hb]

/-- C7 amended: for every nonzero 128-bit identifier, `ZenohID::size`
equals `max(1, 16 - trailing_zero_bytes)`, is at least 1, and the
INIT-SYN encoder emits exactly that many identifier bytes with
`size - 1` packed into the 4-bit `zid_len` field (the all-zero
identifier, where `size` is 0, is the counterexample to the original
claim). -/
theorem c7_significant_length_nonzero (id : Nat) (h128 : id < 2 ^ 128) (hne : id ≠ 0)
    (wai : WhatAmI) :
    ZenohID.size id = max 1 (16 - trailingZeroBytes id)
    ∧ 1 ≤ ZenohID.size id
    ∧ InitSynS.encode (InitSynS.new wai id) [] =
        .ok ([0x41, 0x09, ((ZenohID.size id - 1) <<< 4) ||| whatAmIBits wai]
              ++ (leBytes16 id).take (ZenohID.size id) ++ [0x0A, 0x00, 0x08]) := by
  have hlog : Nat.log2 id ≤ 127 := by
    have h2 := (Nat.log2_lt hne).mpr h128
    omega
  have hsz := ZenohID.size_eq_log2 id h128 hne
  have htzb := trailingZeroBytes_eq id h128 hne
  have hszb : 1 ≤ ZenohID.size id ∧ ZenohID.size id ≤ 16 := by omega
  refine ⟨by omega, hszb.1, ?_⟩
  have hh : (InitSynS.new wai id).header = 65 := by
    unfold InitSynS.header InitSynS.new
    norm_num [Z_BATCH_UNICAST_SIZE, Z_DEFAULT_MULTICAST_BATCH_SIZE, Z_MID_T_INIT, flagS,
      Z_SN_RESOLUTION, Z_REQ_RESOLUTION, Z_DEFAULT_RESOLUTION_SIZE]
    decide
  have hflags : (((ZenohID.size id + 255) % 256) <<< 4) % 256 =
      (ZenohID.size id - 1) <<< 4 := by
    rw [Nat.shiftLeft_eq, Nat.shiftLeft_eq]
    omega
  have hS : ((65 : Nat) &&& flagS == flagS) = true := by decide
  have hA : ((65 : Nat) &&& flagA == flagA) = false := by decide
  have hcb : ((2 &&& 3 : Nat) ||| ((2 &&& 3) <<< 2)) = 10 := by decide
  have hbs : u16LeBytes 2048 = [0, 8] := by decide
  have w1 : zvecWrite [] [65] = .ok [65] := by decide
  have w2 : zvecWrite [65] [9] = .ok [65, 9] := by decide
  have w3 : ∀ f : Nat, zvecWrite [65, 9] [f] = .ok [65, 9, f] := by
    intro f
    exact zvecWrite_ok _ _ (by simp)
  have w4 : zvecWrite [65, 9, (ZenohID.size id - 1) <<< 4 ||| whatAmIBits wai]
      ((leBytes16 id).take (ZenohID.size id)) =
      .ok ([65, 9, (ZenohID.size id - 1) <<< 4 ||| whatAmIBits wai]
            ++ (leBytes16 id).take (ZenohID.size id)) :=
    zvecWrite_ok _ _ (by simp [List.length_take]; omega)
  have w5 : zvecWrite ([65, 9, (ZenohID.size id - 1) <<< 4 ||| whatAmIBits wai]
      ++ (leBytes16 id).take (ZenohID.size id)) [10] =
      .ok (([65, 9, (ZenohID.size id - 1) <<< 4 ||| whatAmIBits wai]
            ++ (leBytes16 id).take (ZenohID.size id)) ++ [10]) :=
    zvecWrite_ok _ _ (by simp [List.length_take]; omega)
  have w6 : zvecWrite (([65, 9, (ZenohID.size id - 1) <<< 4 ||| whatAmIBits wai]
      ++ (leBytes16 id).take (ZenohID.size id)) ++ [10]) [0, 8] =
      .ok ((([65, 9, (ZenohID.size id - 1) <<< 4 ||| whatAmIBits wai]
            ++ (leBytes16 id).take (ZenohID.size id)) ++ [10]) ++ [0, 8]) :=
    zvecWrite_ok _ _ (by simp [List.length_take]; omega)
  simp only [InitSynS.encode]
  simp only [hh]
  simp only [InitSynS.new]
  simp only [hflags, hS, hA, if_true, Bool.false_eq_true, if_false]
  simp only [Z_PROTO_VERSION, Z_SN_RESOLUTION, Z_REQ_RESOLUTION, Z_BATCH_UNICAST_SIZE, hcb, hbs]
  simp only [w1, w2, w3, w4, w5, w6, exceptBind_ok]
  simp [List.append_assoc]

/-- C7 witness: the identifier `0x49` (one significant byte). -/
theorem c7_witness :
    ZenohID.size 0x49 = max 1 (16 - trailingZeroBytes 0x49)
    ∧ 1 ≤ ZenohID.size 0x49
    ∧ InitSynS.encode (InitSynS.new .client 0x49) [] =
        .ok ([0x41, 0x09, ((ZenohID.size 0x49 - 1) <<< 4) ||| whatAmIBits .client]
              ++ (leBytes16 0x49).take (ZenohID.size 0x49) ++ [0x0A, 0x00, 0x08]) :=
  c7_significant_length_nonzero 0x49 (by norm_num) (by norm_num) .client

/-- The varint decode loop consumes at most `fuel` further bytes. -/
theorem varintDecodeLoop_consumed_le (fuel : Nat) :
    ∀ (bs : List Nat) (width value shift consumed v n : Nat),
      varintDecodeLoop width bs fuel value shift consumed = .ok (v, n) →
      n ≤ consumed + fuel := by
  induction fuel with
  | zero =>
    intro bs width value shift consumed v n h
    simp only [varintDecodeLoop] at h
    cases h
    omega
  | succ fuel ih =>
    intro bs width value shift consumed v n h
    cases bs with
    | nil => simp [varintDecodeLoop] at h
    | cons b rest =>
      simp only [varintDecodeLoop] at h
      by_cases hb : (b &&& 0x80 == 0) = true
      · rw [if_pos hb] at h
        cases h
        omega
      · rw [if_neg hb] at h
        have := ih rest width _ _ (consumed + 1) v n h
        omega

/-- On a stream whose first `fuel` bytes all carry the continuation bit,
the varint decode loop runs out of fuel and returns `Ok` after exactly
`fuel` bytes. -/
theorem varintDecodeLoop_all_continuation (fuel : Nat) :
    ∀ (bs : List Nat) (width value shift consumed : Nat),
      (∀ i, i < fuel → (bs.getD i 0) &&& 0x80 ≠ 0) → fuel ≤ bs.length →
      ∃ v, varintDecodeLoop width bs fuel value shift consumed = .ok (v, consumed + fuel) := by
  induction fuel with
  | zero =>
    intro bs width value shift consumed _ _
    exact ⟨value, by simp [varintDecodeLoop]⟩
  | succ fuel ih =>
    intro bs width value shift consumed hcont hlen
    match bs with
    | [] => simp at hlen
    | b :: rest =>
      simp only [varintDecodeLoop]
      have hb0 : b &&& 0x80 ≠ 0 := by
        have := hcont 0 (by omega)
        simpa using this
      rw [if_neg (by simpa using hb0)]
      have hrest : ∀ i, i < fuel → (rest.getD i 0) &&& 0x80 ≠ 0 := by
        intro i hi
        have := hcont (i + 1) (by omega)
        simpa using this
      obtain ⟨v, hv⟩ := ih rest width _ _ (consumed + 1) hrest
        (by simp only [List.length_cons] at hlen; omega)
      have harith : consumed + 1 + fuel = consumed + (fuel + 1) := by omega
      exact ⟨v, by rw [hv, harith]⟩

/-- C8 amended: `Varint::<T>::decode` consumes at most
`size_of::<T>() + 1` bytes (not `ceil(bits/7) + 1`), and when the
continuation bit is still set on all of those bytes it returns `Ok` with
the accumulated value instead of an error. -/
theorem c8_varint_decode_consumption (sizeBytes : Nat) (bs : List Nat) :
    (∀ v n, varintDecode sizeBytes bs = .ok (v, n) → n ≤ sizeBytes + 1)
    ∧ ((∀ i, i < sizeBytes + 1 → (bs.getD i 0) &&& 0x80 ≠ 0) → sizeBytes + 1 ≤ bs.length →
        ∃ v, varintDecode sizeBytes bs = .ok (v, sizeBytes + 1)) := by
  constructor
  · intro v n h
    have := varintDecodeLoop_consumed_le (sizeBytes + 1) bs (8 * sizeBytes) 0 0 0 v n h
    omega
  · intro hcont hlen
    obtain ⟨v, hv⟩ :=
      varintDecodeLoop_all_continuation (sizeBytes + 1) bs (8 * sizeBytes) 0 0 0 hcont hlen
    exact ⟨v, by simpa [varintDecode] using hv⟩

/-- C8 witness: a `u64` stream of nine continuation bytes decodes to
`Ok` after exactly 9 bytes. -/
theorem c8_witness :
    ∃ v, varintDecode 8 (List.replicate 9 0x80) = .ok (v, 9) :=
  (c8_varint_decode_consumption 8 (List.replicate 9 0x80)).2 (by decide) (by decide)

/-- C10 amended: on every buffer of at least 3 bytes `deserialize_from`
is total — it returns `Ok` or a `LinkError` and performs no
out-of-bounds access (shorter buffers panic, see the counterexample). -/
theorem c10_deserialize_total_from_three (source : List Nat) (h : 3 ≤ source.length) :
    deserialize_from source ≠ none := by
  unfold deserialize_from
  split
  · simp
  · split_ifs with h1
    · exact absurd h (by omega)
    · dsimp only
      split
      · simp
      · split <;> simp

/-- C10 witness: a concrete 3-byte buffer. -/
theorem c10_witness : deserialize_from [0x01, 0x02, 0x00] ≠ none :=
  c10_deserialize_total_from_three [0x01, 0x02, 0x00] (by decide)

/-- Sanity: spec §8 scenario 4 — the INIT-ACK `header=0x21`, version 9,
flags byte `0x02` (client, one-byte zid `0x49`), `S==0`, cookie
`varint(4) ++ CA FE F0 0D` decodes to an `InitAck` whose cookie slot holds
exactly those four bytes (the cookie that `c5_opensyn_echoes_initack_cookie`
shows is echoed in OPEN-SYN). -/
theorem initAck_scenario_decodes :
    InitSynS.decode 0x21 [0x09, 0x02, 0x49, 0x04, 0xCA, 0xFE, 0xF0, 0x0D] =
      some (.ok (.initAck ⟨0x49, Cookie.fromSlice [0xCA, 0xFE, 0xF0, 0x0D],
        Z_DEFAULT_MULTICAST_BATCH_SIZE, .client, Z_DEFAULT_RESOLUTION_SIZE,
        Z_DEFAULT_RESOLUTION_SIZE, 0x09⟩)) := by decide
